import Mathlib

/-!
Shallow embedding of the maskify segmentation-driven compositing core
(src/App.tsx, src/components/Canvas.tsx, src/hooks/useTransformers.ts,
src/components/Sidebar.tsx) together with proofs about the embedded
operations.  JavaScript numbers are modelled as rationals; the special
values NaN and plus or minus Infinity are modelled explicitly where the
code tests for them.  Pixel buffers are lists of RGBA records; canvases
and DOM handles are reduced to the pixel data the algorithms touch.
-/

namespace Maskify

/-! ## Coordinate mapper (Canvas.tsx) -/

/-- Viewport geometry: the current pixel dimensions of the Konva stage. -/
structure StageSize where
  width : ℚ
  height : ℚ
deriving DecidableEq

/-- Clamp a relative coordinate into the unit interval, mirroring
the expression max(0, min(1, v)) in handleInternalStageClick. -/
def clampRel (v : ℚ) : ℚ := max 0 (min 1 v)

/-- getPointCanvasCoords in Canvas.tsx: a stored relative point is scaled
by the stage dimensions to obtain absolute stage pixels. -/
def getPointCanvasCoords (stageSize : StageSize) (x y : ℚ) : ℚ × ℚ :=
  (x * stageSize.width, y * stageSize.height)

/-- The click-to-relative conversion in handleInternalStageClick of
Canvas.tsx: divide the pointer position by the stage dimensions and clamp
each coordinate into the unit interval. -/
def clickToRelative (stageSize : StageSize) (posX posY : ℚ) : ℚ × ℚ :=
  (clampRel (posX / stageSize.width), clampRel (posY / stageSize.height))

/-! ## Pixel buffers and mask construction (useTransformers.ts) -/

/-- One RGBA pixel of an ImageData buffer. -/
structure RGBA where
  r : ℕ
  g : ℕ
  b : ℕ
  a : ℕ
deriving DecidableEq

/-- The fully transparent black pixel, used as a getD default. -/
def blankPixel : RGBA := ⟨0, 0, 0, 0⟩

/-- The per-pixel step of the clipping-overlay loop in
segmentWithPointsImpl: where the winning mask value equals 1 the alpha
byte is forced to 0, elsewhere the rasterized base pixel is kept. -/
def clipPixel (m : ℚ) (p : RGBA) : RGBA :=
  if m = 1 then { p with a := 0 } else p

/-- The clipping overlay buffer built by segmentWithPointsImpl: the base
image rasterized at mask resolution, with alpha forced to 0 at every
index where the extracted mask value equals 1. -/
def buildClipBuffer (basePixels : List RGBA) (mask : List ℚ) : List RGBA :=
  List.zipWith clipPixel mask basePixels

/-! ## Best-candidate selection (useTransformers.ts) -/

/-- The scan loop of segmentWithPointsImpl that walks the iou scores,
carrying the running maximum, the index of the current best candidate and
the index of the next element to inspect; an element strictly greater
than the running maximum becomes the new best. -/
def bestIndexLoop (maxScore : ℚ) (best : ℕ) (i : ℕ) : List ℚ → ℕ
  | [] => best
  | s :: rest =>
      if maxScore < s then bestIndexLoop s i (i + 1) rest
      else bestIndexLoop maxScore best (i + 1) rest

/-- The mask-candidate selection of segmentWithPointsImpl: bestIndex
starts at 0 and the loop above scans the remaining scores. -/
def bestIndexOf : List ℚ → ℕ
  | [] => 0
  | s :: rest => bestIndexLoop s 0 1 rest

/-! ## JavaScript numbers -/

/-- A JavaScript number as the transform-patch validation sees it:
either NaN, one of the two infinities, or a finite value. -/
inductive JsNum where
  | nan : JsNum
  | posInf : JsNum
  | negInf : JsNum
  | num : ℚ → JsNum
deriving DecidableEq

/-- The isValidNumber helper of App.tsx: typeof num is number and
isNaN(num) is false.  Note that both infinities pass this test. -/
def isValidNumber : JsNum → Bool
  | .nan => false
  | _ => true

/-- The JavaScript comparison v less-or-equal 0 on a number: false for
NaN and positive infinity, true for negative infinity, and the rational
comparison otherwise. -/
def jsNonPos : JsNum → Bool
  | .nan => false
  | .posInf => false
  | .negInf => true
  | .num q => decide (q ≤ 0)

/-! ## Layer store (App.tsx) -/

/-- One overlay layer of the layer store, restricted to the fields the
verified handlers read or write. -/
structure ImageDataM where
  id : String
  originalSrc : String
  processedSrc : String
  relX : JsNum
  relY : JsNum
  relWidth : JsNum
  relHeight : JsNum
  rotation : JsNum
  isRemovingBg : Bool
  isChangingColor : Bool
deriving DecidableEq

/-- A partial relative-transform patch as delivered to
handleUpdateImageTransform; a missing field is none. -/
structure TransformAttrs where
  relX : Option JsNum
  relY : Option JsNum
  relWidth : Option JsNum
  relHeight : Option JsNum
  rotation : Option JsNum
deriving DecidableEq

/-- Validation of a position or rotation field in
handleUpdateImageTransform: the key is deleted when the value fails
isValidNumber. -/
def validateOpt (v : Option JsNum) : Option JsNum :=
  match v with
  | some x => if isValidNumber x then some x else none
  | none => none

/-- Validation of a size field in handleUpdateImageTransform: the key is
deleted when the value fails isValidNumber or is less-or-equal 0. -/
def validateSizeOpt (v : Option JsNum) : Option JsNum :=
  match v with
  | some x => if isValidNumber x && !jsNonPos x then some x else none
  | none => none

/-- The validatedAttrs object built by handleUpdateImageTransform. -/
def validateAttrs (attrs : TransformAttrs) : TransformAttrs where
  relX := validateOpt attrs.relX
  relY := validateOpt attrs.relY
  relWidth := validateSizeOpt attrs.relWidth
  relHeight := validateSizeOpt attrs.relHeight
  rotation := validateOpt attrs.rotation

/-- The object spread in handleUpdateImageTransform: fields present in
the validated patch override the stored layer, absent fields keep their
stored values. -/
def applySpread (t : ImageDataM) (attrs : TransformAttrs) : ImageDataM :=
  { t with
    relX := attrs.relX.getD t.relX
    relY := attrs.relY.getD t.relY
    relWidth := attrs.relWidth.getD t.relWidth
    relHeight := attrs.relHeight.getD t.relHeight
    rotation := attrs.rotation.getD t.rotation }

/-- handleUpdateImageTransform of App.tsx: validate the patch, then map
over the layer list applying the validated patch to the layer with the
matching id. -/
def handleUpdateImageTransform (id : String) (attrs : TransformAttrs)
    (images : List ImageDataM) : List ImageDataM :=
  images.map fun t =>
    if t.id == id then applySpread t (validateAttrs attrs) else t

/-- handleReorderImages of App.tsx: find both indices; when either id is
missing or the indices coincide the list is returned unchanged, else the
dragged layer is removed and reinserted at the drop position, the index
being decremented when the dragged layer sat before the drop target. -/
def handleReorderImages (draggedId droppedOnId : String)
    (prevImages : List ImageDataM) : List ImageDataM :=
  match prevImages.findIdx? (fun t => t.id == draggedId),
        prevImages.findIdx? (fun t => t.id == droppedOnId) with
  | some draggedIndex, some droppedOnIndex =>
      if draggedIndex = droppedOnIndex then prevImages
      else
        match prevImages[draggedIndex]? with
        | some itemToMove =>
            (prevImages.eraseIdx draggedIndex).insertIdx
              (if draggedIndex < droppedOnIndex then droppedOnIndex - 1
               else droppedOnIndex) itemToMove
        | none => prevImages
  | _, _ => prevImages

/-- handleRemoveBackground of App.tsx up to the service call: the request
is refused (no state change, no call) when the layer is missing, already
mid-removal, the service is not ready, or its processed source differs
from the original source; otherwise the layer is flagged and the call is
made.  The boolean reports whether the service call was started. -/
def handleRemoveBackgroundStart (isBgRemovalReady : Bool) (id : String)
    (images : List ImageDataM) : List ImageDataM × Bool :=
  match images.find? (fun t => t.id == id) with
  | none => (images, false)
  | some image =>
      if image.isRemovingBg || !isBgRemovalReady
          || image.processedSrc != image.originalSrc then
        (images, false)
      else
        (images.map fun t =>
          if t.id == id then { t with isRemovingBg := true } else t, true)

/-- The img.onload completion of handleRemoveBackground: the processed
source is replaced wholesale and the flag is cleared, transforms kept. -/
def handleRemoveBackgroundLoaded (id : String) (resultSrc : String)
    (images : List ImageDataM) : List ImageDataM :=
  images.map fun t =>
    if t.id == id then
      { t with processedSrc := resultSrc, isRemovingBg := false }
    else t

/-- The img.onload completion of handleAddColor: the processed source is
replaced by the tinted pixels and the tint flag is cleared. -/
def handleAddColorLoaded (id : String) (resultSrc : String)
    (images : List ImageDataM) : List ImageDataM :=
  images.map fun t =>
    if t.id == id then
      { t with processedSrc := resultSrc, isChangingColor := false }
    else t

/-! ## Segmentation session state (App.tsx) -/

/-- The two mask canvases of a MaskData value, reduced to pixel lists. -/
structure MaskDataM where
  maskCanvas : Option (List RGBA)
  clippingOverlayCanvas : Option (List RGBA)
deriving DecidableEq

/-- A segmentation point; coordinates are relative to the base image. -/
structure PointDataM where
  id : String
  x : ℚ
  y : ℚ
  label : ℕ
deriving DecidableEq

/-- The slice of App state the segmentation effect reads and writes:
the live base image identity (its src), the point list, the mask
buffers, and the global clip toggle. -/
structure AppSegState where
  baseImageSrc : Option String
  segmentationPoints : List PointDataM
  maskData : Option (MaskDataM)
  clipImagesGlobally : Bool
deriving DecidableEq

/-- The completion handler of the segmentation useEffect in App.tsx: the
src captured when the request started is compared with the src of the
currently live base image; on a match the new mask is applied, otherwise
the result is discarded, the mask state cleared and the clip toggle
reset. -/
def applySegmentationResult (requestSrc : String)
    (newMask : Option (MaskDataM)) (s : AppSegState) : AppSegState :=
  match s.baseImageSrc with
  | some currentSrc =>
      if currentSrc = requestSrc then { s with maskData := newMask }
      else { s with maskData := none, clipImagesGlobally := false }
  | none => { s with maskData := none, clipImagesGlobally := false }

/-- The guard at the top of the segmentation useEffect in App.tsx: when
the point list is empty while mask data exists, the mask data is cleared
and the global clip toggle reset. -/
def segmentationPointsEffect (s : AppSegState) : AppSegState :=
  if ¬ (0 < s.segmentationPoints.length) ∧ s.maskData ≠ none then
    { s with maskData := none, clipImagesGlobally := false }
  else s

/-! ## Sample data used by concrete witnesses -/

/-- A pristine overlay layer with id a. -/
def sampleImageA : ImageDataM :=
  ⟨"a", "o", "o", .num 0, .num 0, .num (1/10), .num (1/10), .num 0, false, false⟩

/-- A pristine overlay layer with id b. -/
def sampleImageB : ImageDataM :=
  ⟨"b", "o", "o", .num 0, .num 0, .num (1/10), .num (1/10), .num 0, false, false⟩

/-- A layer with the background-removal flag already set. -/
def busyImage : ImageDataM :=
  ⟨"c", "o", "o", .num 0, .num 0, .num 0, .num 0, .num 0, true, false⟩

/-! ## C2: relative-absolute round trip -/

/-- C2: for relative coordinates in the unit square and a stage with
positive pixel dimensions, scaling to absolute stage pixels with
getPointCanvasCoords and converting back with the click handler
conversion (divide and clamp) returns the original coordinates. -/
theorem point_coord_roundtrip (g : StageSize) (x y : ℚ)
    (hw : 0 < g.width) (hh : 0 < g.height)
    (hx0 : 0 ≤ x) (hx1 : x ≤ 1) (hy0 : 0 ≤ y) (hy1 : y ≤ 1) :
    clickToRelative g (getPointCanvasCoords g x y).1
      (getPointCanvasCoords g x y).2 = (x, y) := by
  simp only [getPointCanvasCoords, clickToRelative, clampRel]
  rw [mul_div_cancel_right₀ x (ne_of_gt hw), mul_div_cancel_right₀ y (ne_of_gt hh)]
  rw [min_eq_right hx1, max_eq_right hx0, min_eq_right hy1, max_eq_right hy0]

/-- Concrete instance of the round-trip law on a 10 by 20 stage. -/
theorem point_coord_roundtrip_witness :
    clickToRelative ⟨10, 20⟩ (getPointCanvasCoords ⟨10, 20⟩ (1/2) (1/4)).1
      (getPointCanvasCoords ⟨10, 20⟩ (1/2) (1/4)).2 = (1/2, 1/4) :=
  point_coord_roundtrip ⟨10, 20⟩ (1/2) (1/4) (by norm_num) (by norm_num)
    (by norm_num) (by norm_num) (by norm_num) (by norm_num)

/-! ## C4: stale segmentation results are discarded -/

/-- C4: when the segmentation completion handler runs and the live base
image identity no longer matches the src the request was started with,
the result is discarded: the mask state is cleared and the global clip
toggle reset, and the base image is left alone. -/
theorem stale_segmentation_discarded (requestSrc : String)
    (newMask : Option (MaskDataM)) (s : AppSegState)
    (h : s.baseImageSrc ≠ some requestSrc) :
    (applySegmentationResult requestSrc newMask s).maskData = none ∧
    (applySegmentationResult requestSrc newMask s).clipImagesGlobally = false := by
  cases hs : s.baseImageSrc with
  | none => simp [applySegmentationResult, hs]
  | some c =>
      have hc : c ≠ requestSrc := by
        intro hce
        exact h (hce ▸ hs)
      simp [applySegmentationResult, hs, hc]

/-- Concrete instance: a result for src s1 arriving while src s2 is live
is discarded. -/
theorem stale_segmentation_discarded_witness :
    (applySegmentationResult "s1" (some ⟨none, none⟩)
        ⟨some "s2", [], some ⟨none, none⟩, true⟩).maskData = none ∧
    (applySegmentationResult "s1" (some ⟨none, none⟩)
        ⟨some "s2", [], some ⟨none, none⟩, true⟩).clipImagesGlobally = false :=
  stale_segmentation_discarded "s1" (some ⟨none, none⟩)
    ⟨some "s2", [], some ⟨none, none⟩, true⟩ (by decide)

/-! ## C5: emptying the point set clears the mask buffers -/

/-- C5: when the segmentation effect observes an empty point list while
mask buffers exist, it clears the mask buffers and resets the global
clip toggle. -/
theorem empty_points_clear_mask (s : AppSegState)
    (hp : s.segmentationPoints = []) (hm : s.maskData ≠ none) :
    (segmentationPointsEffect s).maskData = none ∧
    (segmentationPointsEffect s).clipImagesGlobally = false := by
  have hcond : ¬ (0 < s.segmentationPoints.length) ∧ s.maskData ≠ none :=
    ⟨by simp [hp], hm⟩
  rw [segmentationPointsEffect, if_pos hcond]
  exact ⟨rfl, rfl⟩

/-- Concrete instance with an empty point list and a present mask. -/
theorem empty_points_clear_mask_witness :
    (segmentationPointsEffect ⟨some "s", [], some ⟨none, none⟩, true⟩).maskData = none ∧
    (segmentationPointsEffect
        ⟨some "s", [], some ⟨none, none⟩, true⟩).clipImagesGlobally = false :=
  empty_points_clear_mask ⟨some "s", [], some ⟨none, none⟩, true⟩ rfl (by decide)

/-! ## C1: alpha of the clipping overlay -/

/-- C1 as stated fails: at a pixel where the rasterized base image is
itself fully transparent and the mask value is 0, the clip buffer alpha
is 0 although the mask value is not 1, so alpha 0 does not imply
mask 1. -/
theorem clipBuffer_alpha_iff_fails :
    ¬ ((((buildClipBuffer [⟨5, 5, 5, 0⟩] [0]).getD 0 blankPixel).a = 0) ↔
        (([(0 : ℚ)].getD 0 0) = 1)) := by
  decide

/-- C1 amended: the clip buffer alpha at a pixel is 0 exactly when the
mask value there equals 1 or the rasterized base image was already
transparent there; in particular alpha is forced to 0 at every mask 1
pixel and untouched elsewhere. -/
theorem clipBuffer_alpha_characterization (basePixels : List RGBA)
    (mask : List ℚ) (i : ℕ) (hb : i < basePixels.length) (hm : i < mask.length) :
    (((buildClipBuffer basePixels mask).getD i blankPixel).a = 0 ↔
      (mask.getD i 0 = 1 ∨ (basePixels.getD i blankPixel).a = 0)) := by
  have hlen : i < (buildClipBuffer basePixels mask).length := by
    simp only [buildClipBuffer, List.length_zipWith]
    omega
  rw [List.getD_eq_getElem _ _ hlen, List.getD_eq_getElem _ _ hm,
    List.getD_eq_getElem _ _ hb]
  simp only [buildClipBuffer] at hlen ⊢
  rw [List.getElem_zipWith]
  unfold clipPixel
  by_cases h1 : mask[i] = 1
  · simp [h1]
  · simp [h1]

/-- Concrete instance of the amended characterization on an opaque base
pixel under a mask 1 value. -/
theorem clipBuffer_alpha_characterization_witness :
    (((buildClipBuffer [⟨1, 2, 3, 7⟩] [1]).getD 0 blankPixel).a = 0 ↔
      (([(1 : ℚ)].getD 0 0) = 1 ∨ (([⟨1, 2, 3, 7⟩] : List RGBA).getD 0 blankPixel).a = 0)) :=
  clipBuffer_alpha_characterization [⟨1, 2, 3, 7⟩] [1] 0 (by simp) (by simp)

/-! ## C6: partial transform patches -/

/-- C6 as stated fails: a relX value of positive infinity is not a
finite number, yet handleUpdateImageTransform applies it instead of
dropping it, because the isValidNumber guard only rejects NaN. -/
theorem updateTransform_infinite_position_applied :
    sampleImageA.relX = JsNum.num 0 ∧
    (handleUpdateImageTransform "a" ⟨some JsNum.posInf, none, none, none, none⟩
        [sampleImageA]).map (fun t => t.relX) = [JsNum.posInf] :=
  ⟨rfl, rfl⟩

/-- The patch behaviour the code actually implements, written from the
amended claim: on the layer with the matching id a relX, relY or
rotation field is dropped exactly when it is NaN, a relWidth or
relHeight field exactly when it is NaN or less-or-equal 0, absent
fields keep their stored values, and all other layers are unchanged. -/
def updateTransformSpec (id : String) (attrs : TransformAttrs)
    (images : List ImageDataM) : List ImageDataM :=
  images.map fun t =>
    if t.id == id then
      { t with
        relX := match attrs.relX with
          | some v => if v = JsNum.nan then t.relX else v
          | none => t.relX
        relY := match attrs.relY with
          | some v => if v = JsNum.nan then t.relY else v
          | none => t.relY
        relWidth := match attrs.relWidth with
          | some v => if v = JsNum.nan ∨ jsNonPos v then t.relWidth else v
          | none => t.relWidth
        relHeight := match attrs.relHeight with
          | some v => if v = JsNum.nan ∨ jsNonPos v then t.relHeight else v
          | none => t.relHeight
        rotation := match attrs.rotation with
          | some v => if v = JsNum.nan then t.rotation else v
          | none => t.rotation }
    else t

/-- The validated position or rotation field, read back through the
spread, keeps the stored value exactly on NaN. -/
theorem validateOpt_getD (o : Option JsNum) (d : JsNum) :
    (validateOpt o).getD d = (match o with
      | some v => if v = JsNum.nan then d else v
      | none => d) := by
  cases o with
  | none => rfl
  | some v => cases v <;> simp [validateOpt, isValidNumber]

/-- The validated size field, read back through the spread, keeps the
stored value exactly on NaN or a non-positive value. -/
theorem validateSizeOpt_getD (o : Option JsNum) (d : JsNum) :
    (validateSizeOpt o).getD d = (match o with
      | some v => if v = JsNum.nan ∨ jsNonPos v then d else v
      | none => d) := by
  cases o with
  | none => rfl
  | some v =>
      cases v with
      | nan => simp [validateSizeOpt, isValidNumber, jsNonPos]
      | posInf => simp [validateSizeOpt, isValidNumber, jsNonPos]
      | negInf => simp [validateSizeOpt, isValidNumber, jsNonPos]
      | num q =>
          by_cases hq : q ≤ 0 <;>
            simp [validateSizeOpt, isValidNumber, jsNonPos, hq]

/-- C6 amended: handleUpdateImageTransform behaves as the field-by-field
patch rule of updateTransformSpec. -/
theorem updateTransform_matches_patch_spec (id : String)
    (attrs : TransformAttrs) (images : List ImageDataM) :
    handleUpdateImageTransform id attrs images =
      updateTransformSpec id attrs images := by
  unfold handleUpdateImageTransform updateTransformSpec
  congr 1
  funext t
  by_cases hid : (t.id == id) = true
  · simp only [hid, if_true]
    unfold applySpread validateAttrs
    simp only [validateOpt_getD, validateSizeOpt_getD]
  · simp [hid]

/-! ## C3: first maximal candidate wins -/

/-- Invariant of the score scan loop: either no element beats the
carried maximum and the carried best index is returned, or the result
points at the first element of the remaining scores that attains their
overall maximum while strictly beating the carried maximum. -/
theorem bestIndexLoop_spec (rest : List ℚ) : ∀ (m : ℚ) (b i : ℕ),
    (bestIndexLoop m b i rest = b ∧ ∀ x ∈ rest, x ≤ m) ∨
    (∃ k, k < rest.length ∧ bestIndexLoop m b i rest = i + k ∧
      m < rest.getD k 0 ∧ (∀ x ∈ rest, x ≤ rest.getD k 0) ∧
      ∀ j, j < k → rest.getD j 0 < rest.getD k 0) := by
  induction rest with
  | nil =>
      intro m b i
      left
      exact ⟨rfl, by simp⟩
  | cons s rest ih =>
      intro m b i
      by_cases hms : m < s
      · rw [bestIndexLoop, if_pos hms]
        rcases ih s i (i + 1) with ⟨heq, hall⟩ | ⟨k, hk, heq, hlt, hall, hfirst⟩
        · right
          refine ⟨0, by simp, by simpa using heq, by simpa using hms, ?_, ?_⟩
          · intro x hx
            rcases List.mem_cons.mp hx with rfl | hx
            · simp
            · simpa using hall x hx
          · intro j hj
            omega
        · right
          refine ⟨k + 1, by simpa using hk, by rw [heq]; omega, ?_, ?_, ?_⟩
          · simpa using lt_trans hms hlt
          · intro x hx
            rcases List.mem_cons.mp hx with rfl | hx
            · simpa using le_of_lt hlt
            · simpa using hall x hx
          · intro j hj
            cases j with
            | zero => simpa using hlt
            | succ j =>
                simp only [List.getD_cons_succ]
                exact hfirst j (by omega)
      · rw [bestIndexLoop, if_neg hms]
        rcases ih m b (i + 1) with ⟨heq, hall⟩ | ⟨k, hk, heq, hlt, hall, hfirst⟩
        · left
          refine ⟨heq, ?_⟩
          intro x hx
          rcases List.mem_cons.mp hx with rfl | hx
          · exact le_of_not_lt hms
          · exact hall x hx
        · right
          refine ⟨k + 1, by simpa using hk, by rw [heq]; omega, ?_, ?_, ?_⟩
          · simpa using hlt
          · intro x hx
            rcases List.mem_cons.mp hx with rfl | hx
            · simpa using le_trans (le_of_not_lt hms) (le_of_lt hlt)
            · simpa using hall x hx
          · intro j hj
            cases j with
            | zero =>
                simpa using lt_of_le_of_lt (le_of_not_lt hms) hlt
            | succ j =>
                simp only [List.getD_cons_succ]
                exact hfirst j (by omega)

/-- C3: for a nonempty score list, the selected candidate index is in
range, every score is at most the selected score, and every earlier
candidate scores strictly less: the first maximal score wins, so equal
scores select index 0. -/
theorem bestIndex_first_max (scores : List ℚ) (hne : scores ≠ []) :
    bestIndexOf scores < scores.length ∧
    (∀ j, j < scores.length →
      scores.getD j 0 ≤ scores.getD (bestIndexOf scores) 0) ∧
    (∀ j, j < bestIndexOf scores →
      scores.getD j 0 < scores.getD (bestIndexOf scores) 0) := by
  obtain ⟨s, rest, rfl⟩ := List.exists_cons_of_ne_nil hne
  simp only [bestIndexOf]
  rcases bestIndexLoop_spec rest s 0 1 with ⟨heq, hall⟩ | ⟨k, hk, heq, hlt, hall, hfirst⟩
  · rw [heq]
    refine ⟨by simp, ?_, ?_⟩
    · intro j hj
      cases j with
      | zero => simp
      | succ j =>
          simp only [List.getD_cons_succ, List.getD_cons_zero]
          have hjr : j < rest.length := by simpa using hj
          exact hall _ (List.getD_eq_getElem rest 0 hjr ▸ List.getElem_mem hjr)
    · intro j hj
      omega
  · rw [heq]
    have hidx : 1 + k = k + 1 := by omega
    rw [hidx]
    refine ⟨by simpa using hk, ?_, ?_⟩
    · intro j hj
      cases j with
      | zero => simpa using le_of_lt hlt
      | succ j =>
          simp only [List.getD_cons_succ]
          have hjr : j < rest.length := by simpa using hj
          exact hall _ (List.getD_eq_getElem rest 0 hjr ▸ List.getElem_mem hjr)
    · intro j hj
      cases j with
      | zero => simpa using hlt
      | succ j =>
          simp only [List.getD_cons_succ]
          exact hfirst j (by omega)

/-- Concrete instance: in scores 2, 3, 3 the first maximal candidate
(index 1) wins and dominates all scores. -/
theorem bestIndex_first_max_witness :
    bestIndexOf [(2 : ℚ), 3, 3] < ([(2 : ℚ), 3, 3]).length ∧
    (∀ j, j < ([(2 : ℚ), 3, 3]).length →
      ([(2 : ℚ), 3, 3]).getD j 0 ≤
        ([(2 : ℚ), 3, 3]).getD (bestIndexOf [(2 : ℚ), 3, 3]) 0) ∧
    (∀ j, j < bestIndexOf [(2 : ℚ), 3, 3] →
      ([(2 : ℚ), 3, 3]).getD j 0 <
        ([(2 : ℚ), 3, 3]).getD (bestIndexOf [(2 : ℚ), 3, 3]) 0) :=
  bestIndex_first_max [2, 3, 3] (by simp)

/-! ## C8 and C10: background-removal guards -/

/-- Searching a layer list by id commutes with mapping an id-preserving
update over it. -/
theorem find?_id_map (f : ImageDataM → ImageDataM)
    (hf : ∀ t, (f t).id = t.id) (p0 : String) (l : List ImageDataM) :
    (l.map f).find? (fun t => t.id == p0) =
      (l.find? (fun t => t.id == p0)).map f := by
  have hp : ((fun t : ImageDataM => t.id == p0) ∘ f) =
      fun t : ImageDataM => t.id == p0 := by
    funext t
    simp [Function.comp, hf t]
  rw [List.find?_map, hp]

/-- The flagging update of handleRemoveBackgroundStart preserves ids. -/
theorem flag_update_id (a : String) (t : ImageDataM) :
    ((if t.id == a then { t with isRemovingBg := true } else t) : ImageDataM).id
      = t.id := by
  by_cases h : (t.id == a) = true <;> simp [h]

/-- A start request is refused whenever the target layer exists and its
processed source differs from its original source. -/
theorem start_refused_of_processed_ne (ready : Bool) (id : String)
    (images : List ImageDataM) (img : ImageDataM)
    (hfind : images.find? (fun t => t.id == id) = some img)
    (hne : img.processedSrc ≠ img.originalSrc) :
    handleRemoveBackgroundStart ready id images = (images, false) := by
  have hbne : (img.processedSrc != img.originalSrc) = true := by
    simpa using hne
  simp [handleRemoveBackgroundStart, hfind, hbne]

/-- C8: a background-removal request on a layer whose flag is already
set is refused with no state change and no service call; and removals on
two distinct eligible layers may overlap: after the first request is
accepted and its layer is flagged, a request on the second layer is
still accepted. -/
theorem removeBackground_serialized_per_layer :
    (∀ (ready : Bool) (id : String) (images : List ImageDataM)
        (img : ImageDataM),
      images.find? (fun t => t.id == id) = some img →
      img.isRemovingBg = true →
      handleRemoveBackgroundStart ready id images = (images, false)) ∧
    (∀ (a b : String) (images : List ImageDataM) (imgA imgB : ImageDataM),
      a ≠ b →
      images.find? (fun t => t.id == a) = some imgA →
      imgA.isRemovingBg = false → imgA.processedSrc = imgA.originalSrc →
      images.find? (fun t => t.id == b) = some imgB →
      imgB.isRemovingBg = false → imgB.processedSrc = imgB.originalSrc →
      (handleRemoveBackgroundStart true a images).snd = true ∧
      ((handleRemoveBackgroundStart true a images).fst.find?
          (fun t => t.id == a) = some { imgA with isRemovingBg := true }) ∧
      (handleRemoveBackgroundStart true b
          (handleRemoveBackgroundStart true a images).fst).snd = true) := by
  constructor
  · intro ready id images img hfind hflag
    simp [handleRemoveBackgroundStart, hfind, hflag]
  · intro a b images imgA imgB hab hfA hflagA hsrcA hfB hflagB hsrcB
    have hidA : imgA.id = a := by
      have := List.find?_some hfA
      simpa using this
    have hidB : imgB.id = b := by
      have := List.find?_some hfB
      simpa using this
    have hstartA : handleRemoveBackgroundStart true a images =
        (images.map fun t =>
          if t.id == a then { t with isRemovingBg := true } else t, true) := by
      simp [handleRemoveBackgroundStart, hfA, hflagA, hsrcA]
    have hfindA2 : (images.map fun t =>
        if t.id == a then { t with isRemovingBg := true } else t).find?
          (fun t => t.id == a) = some { imgA with isRemovingBg := true } := by
      rw [find?_id_map _ (flag_update_id a) a images, hfA]
      simp [hidA]
    have hfindB2 : (images.map fun t =>
        if t.id == a then { t with isRemovingBg := true } else t).find?
          (fun t => t.id == b) = some imgB := by
      rw [find?_id_map _ (flag_update_id a) b images, hfB]
      have hBa : imgB.id ≠ a := by
        rw [hidB]
        exact fun h => hab h.symm
      simp [hBa]
    have hfst : (handleRemoveBackgroundStart true a images).fst =
        images.map (fun t =>
          if t.id == a then { t with isRemovingBg := true } else t) := by
      rw [hstartA]
    have hsnd : (handleRemoveBackgroundStart true a images).snd = true := by
      rw [hstartA]
    refine ⟨hsnd, ?_, ?_⟩
    · rw [hfst]
      exact hfindA2
    · rw [hfst]
      unfold handleRemoveBackgroundStart
      rw [hfindB2]
      simp [hflagB, hsrcB]

/-- Concrete instance of the per-layer serialization law: two pristine
layers a and b, removal started on a, then accepted on b as well. -/
theorem removeBackground_serialized_per_layer_witness :
    (handleRemoveBackgroundStart true "a" [sampleImageA, sampleImageB]).snd = true ∧
    ((handleRemoveBackgroundStart true "a" [sampleImageA, sampleImageB]).fst.find?
        (fun t => t.id == "a") = some { sampleImageA with isRemovingBg := true }) ∧
    (handleRemoveBackgroundStart true "b"
        (handleRemoveBackgroundStart true "a"
          [sampleImageA, sampleImageB]).fst).snd = true :=
  removeBackground_serialized_per_layer.2 "a" "b" [sampleImageA, sampleImageB]
    sampleImageA sampleImageB (by decide) (by rfl) (by rfl) (by rfl) (by rfl)
    (by rfl) (by rfl)

/-- C10: a background-removal request is refused, with the layer list
returned unchanged and no service call, whenever the processed source of
the target layer differs from its original source; consequently a layer
whose processed source was replaced by a completed background removal or
tint (with a result different from the original source) cannot start
another background removal. -/
theorem processedSrc_guard_blocks_bg_removal :
    (∀ (ready : Bool) (id : String) (images : List ImageDataM)
        (img : ImageDataM),
      images.find? (fun t => t.id == id) = some img →
      img.processedSrc ≠ img.originalSrc →
      handleRemoveBackgroundStart ready id images = (images, false)) ∧
    (∀ (ready : Bool) (id res : String) (images : List ImageDataM)
        (img : ImageDataM),
      images.find? (fun t => t.id == id) = some img →
      res ≠ img.originalSrc →
      handleRemoveBackgroundStart ready id
          (handleRemoveBackgroundLoaded id res images) =
        (handleRemoveBackgroundLoaded id res images, false)) ∧
    (∀ (ready : Bool) (id res : String) (images : List ImageDataM)
        (img : ImageDataM),
      images.find? (fun t => t.id == id) = some img →
      res ≠ img.originalSrc →
      handleRemoveBackgroundStart ready id
          (handleAddColorLoaded id res images) =
        (handleAddColorLoaded id res images, false)) := by
  refine ⟨start_refused_of_processed_ne, ?_, ?_⟩
  · intro ready id res images img hfind hne
    have hid : img.id = id := by
      have := List.find?_some hfind
      simpa using this
    have hfid : ∀ t : ImageDataM,
        ((if t.id == id then
            { t with processedSrc := res, isRemovingBg := false }
          else t) : ImageDataM).id = t.id := by
      intro t
      by_cases h : (t.id == id) = true <;> simp [h]
    have hfind2 : (handleRemoveBackgroundLoaded id res images).find?
        (fun t => t.id == id) =
          some { img with processedSrc := res, isRemovingBg := false } := by
      rw [handleRemoveBackgroundLoaded, find?_id_map _ hfid id images, hfind]
      simp [hid]
    exact start_refused_of_processed_ne ready id _ _ hfind2 (by simpa using hne)
  · intro ready id res images img hfind hne
    have hid : img.id = id := by
      have := List.find?_some hfind
      simpa using this
    have hfid : ∀ t : ImageDataM,
        ((if t.id == id then
            { t with processedSrc := res, isChangingColor := false }
          else t) : ImageDataM).id = t.id := by
      intro t
      by_cases h : (t.id == id) = true <;> simp [h]
    have hfind2 : (handleAddColorLoaded id res images).find?
        (fun t => t.id == id) =
          some { img with processedSrc := res, isChangingColor := false } := by
      rw [handleAddColorLoaded, find?_id_map _ hfid id images, hfind]
      simp [hid]
    exact start_refused_of_processed_ne ready id _ _ hfind2 (by simpa using hne)

/-- Concrete instance of the processed-source guard: after a completed
background removal replaced the processed source of layer a, a second
request on a is refused. -/
theorem processedSrc_guard_blocks_bg_removal_witness :
    handleRemoveBackgroundStart true "a"
        (handleRemoveBackgroundLoaded "a" "cut" [sampleImageA]) =
      (handleRemoveBackgroundLoaded "a" "cut" [sampleImageA], false) :=
  processedSrc_guard_blocks_bg_removal.2.1 true "a" "cut" [sampleImageA]
    sampleImageA (by rfl) (by decide)

/-! ## C7 and C9: reordering the layer stack -/

/-- Filtering out an element that fails the predicate is unaffected by
where insertIdx placed it. -/
theorem filter_insertIdx_of_neg {α : Type _} (p : α → Bool) (x : α)
    (hx : p x = false) :
    ∀ (l : List α) (k : ℕ), (l.insertIdx k x).filter p = l.filter p := by
  intro l
  induction l with
  | nil =>
      intro k
      cases k with
      | zero => simp [List.insertIdx_zero, hx]
      | succ k => simp [List.insertIdx_succ_nil]
  | cons y ys ih =>
      intro k
      cases k with
      | zero => simp [List.insertIdx_zero, List.filter_cons, hx]
      | succ k =>
          rw [List.insertIdx_succ_cons]
          by_cases hy : p y = true <;> simp [List.filter_cons, hy, ih k]

/-- Filtering with a predicate that already rejects the element at the
erased index is unaffected by the erasure. -/
theorem filter_eraseIdx_of_neg {α : Type _} (p : α → Bool) :
    ∀ (l : List α) (i : ℕ) (hi : i < l.length),
      p (l.get ⟨i, hi⟩) = false → (l.eraseIdx i).filter p = l.filter p := by
  intro l
  induction l with
  | nil =>
      intro i hi
      simp at hi
  | cons y ys ih =>
      intro i hi hp
      cases i with
      | zero =>
          simp only [List.get] at hp
          simp [List.filter_cons, hp]
      | succ i =>
          rw [List.eraseIdx_cons_succ]
          have hys : i < ys.length := by simpa using hi
          have hp2 : p (ys.get ⟨i, hys⟩) = false := by simpa using hp
          by_cases hy : p y = true <;>
            simp [List.filter_cons, hy, ih i hys hp2]

/-- Decomposition of insertIdx at an in-range index into a take, the new
element, and a drop. -/
theorem insertIdx_take_drop {α : Type _} (x : α) :
    ∀ (l : List α) (k : ℕ), k ≤ l.length →
      l.insertIdx k x = l.take k ++ x :: l.drop k := by
  intro l
  induction l with
  | nil =>
      intro k hk
      have hk0 : k = 0 := by simpa using hk
      subst hk0
      simp [List.insertIdx_zero]
  | cons y ys ih =>
      intro k hk
      cases k with
      | zero => simp [List.insertIdx_zero]
      | succ k =>
          rw [List.insertIdx_succ_cons, ih k (by simpa using hk)]
          simp

/-- C7: reordering a layer onto itself is a no-op, reordering with a
missing dragged or target id is a no-op, and reordering never disturbs
the relative order of the layers other than the dragged one. -/
theorem reorder_noop_and_stability :
    (∀ (d : String) (l : List ImageDataM), handleReorderImages d d l = l) ∧
    (∀ (d t : String) (l : List ImageDataM),
      l.findIdx? (fun x => x.id == d) = none → handleReorderImages d t l = l) ∧
    (∀ (d t : String) (l : List ImageDataM),
      l.findIdx? (fun x => x.id == t) = none → handleReorderImages d t l = l) ∧
    (∀ (d t : String) (l : List ImageDataM),
      (handleReorderImages d t l).filter (fun x => !(x.id == d)) =
        l.filter (fun x => !(x.id == d))) := by
  refine ⟨?_, ?_, ?_, ?_⟩
  · intro d l
    unfold handleReorderImages
    cases h : l.findIdx? (fun x => x.id == d) with
    | none => rfl
    | some di => simp
  · intro d t l h
    unfold handleReorderImages
    rw [h]
  · intro d t l h
    unfold handleReorderImages
    cases hd : l.findIdx? (fun x => x.id == d) with
    | none => rfl
    | some di => rw [h]
  · intro d t l
    unfold handleReorderImages
    cases hd : l.findIdx? (fun x => x.id == d) with
    | none => rfl
    | some di =>
        cases ht : l.findIdx? (fun x => x.id == t) with
        | none => rfl
        | some ti =>
            by_cases hdt : di = ti
            · simp [hdt]
            · dsimp only
              rw [if_neg hdt]
              obtain ⟨hdi, hpd, -⟩ := List.findIdx?_eq_some_iff_getElem.mp hd
              rw [List.getElem?_eq_getElem hdi]
              rw [filter_insertIdx_of_neg _ _ (by simp [hpd]),
                filter_eraseIdx_of_neg _ _ _ hdi (by simp [hpd])]

/-- Concrete instance: reordering with a dragged id absent from the
layer list leaves the list unchanged. -/
theorem reorder_noop_and_stability_witness :
    handleReorderImages "z" "a" [sampleImageA, sampleImageB] =
      [sampleImageA, sampleImageB] :=
  reorder_noop_and_stability.2.1 "z" "a" [sampleImageA, sampleImageB] (by rfl)

/-- C9: whenever both ids are present and distinct, the reordered list
has the dragged layer immediately before the drop-target layer,
whichever side it was dragged from. -/
theorem reorder_places_dragged_before_target (d t : String)
    (l : List ImageDataM) (di ti : ℕ)
    (hd : l.findIdx? (fun x => x.id == d) = some di)
    (ht : l.findIdx? (fun x => x.id == t) = some ti)
    (hne : d ≠ t) :
    ∃ pre post A B, l[di]? = some A ∧ l[ti]? = some B ∧
      handleReorderImages d t l = pre ++ A :: B :: post := by
  obtain ⟨hdi, hpd, -⟩ := List.findIdx?_eq_some_iff_getElem.mp hd
  obtain ⟨hti, hpt, -⟩ := List.findIdx?_eq_some_iff_getElem.mp ht
  have hdt : di ≠ ti := by
    intro he
    apply hne
    have h1 : (l.get ⟨di, hdi⟩).id = d := by simpa using hpd
    have h2 : (l.get ⟨ti, hti⟩).id = t := by simpa using hpt
    subst he
    exact h1.symm.trans h2
  have hre : handleReorderImages d t l =
      (l.eraseIdx di).insertIdx (if di < ti then ti - 1 else ti)
        (l.get ⟨di, hdi⟩) := by
    unfold handleReorderImages
    rw [hd, ht]
    dsimp only
    rw [if_neg hdt, List.getElem?_eq_getElem hdi]
    rfl
  have hlenE : (l.eraseIdx di).length = l.length - 1 :=
    List.length_eraseIdx_of_lt hdi
  have htakelen : (l.take di).length = di := by
    rw [List.length_take]
    omega
  rcases Nat.lt_or_ge di ti with hlt | hge
  · -- dragged from an earlier index
    have hk : ti - 1 ≤ (l.eraseIdx di).length := by omega
    have hdrop : (l.eraseIdx di).drop (ti - 1) =
        l.get ⟨ti, hti⟩ :: l.drop (ti + 1) := by
      rw [List.eraseIdx_eq_take_drop_succ, List.drop_append_eq_append_drop,
        htakelen]
      have h1 : (l.take di).drop (ti - 1) = ([] : List ImageDataM) := by
        apply List.drop_eq_nil_of_le
        omega
      rw [h1, List.drop_drop]
      have h2 : di + 1 + (ti - 1 - di) = ti := by omega
      rw [h2, List.drop_eq_getElem_cons hti]
      simp
    refine ⟨(l.eraseIdx di).take (ti - 1), l.drop (ti + 1),
      l.get ⟨di, hdi⟩, l.get ⟨ti, hti⟩, ?_, ?_, ?_⟩
    · exact List.getElem?_eq_getElem hdi
    · exact List.getElem?_eq_getElem hti
    · rw [hre, if_pos hlt, insertIdx_take_drop _ _ _ hk, hdrop]
  · -- dragged from a later index
    have hlt2 : ti < di := by omega
    have hk : ti ≤ (l.eraseIdx di).length := by omega
    have hdrop : (l.eraseIdx di).drop ti =
        l.get ⟨ti, hti⟩ ::
          ((l.drop (ti + 1)).take (di - ti - 1) ++ l.drop (di + 1)) := by
      rw [List.eraseIdx_eq_take_drop_succ, List.drop_append_eq_append_drop,
        htakelen]
      have h2 : ti - di = 0 := by omega
      rw [h2, List.drop_zero, List.drop_take]
      rw [List.drop_eq_getElem_cons hti]
      have h3 : di - ti = (di - ti - 1) + 1 := by omega
      rw [h3, List.take_succ_cons, List.cons_append]
      simp
    refine ⟨(l.eraseIdx di).take ti,
      (l.drop (ti + 1)).take (di - ti - 1) ++ l.drop (di + 1),
      l.get ⟨di, hdi⟩, l.get ⟨ti, hti⟩, ?_, ?_, ?_⟩
    · exact List.getElem?_eq_getElem hdi
    · exact List.getElem?_eq_getElem hti
    · rw [hre, if_neg (by omega), insertIdx_take_drop _ _ _ hk, hdrop]

/-- Concrete instance: dragging layer b onto layer a in the two-layer
list places b immediately before a. -/
theorem reorder_places_dragged_before_target_witness :
    ∃ pre post A B,
      ([sampleImageA, sampleImageB] : List ImageDataM)[1]? = some A ∧
      ([sampleImageA, sampleImageB] : List ImageDataM)[0]? = some B ∧
      handleReorderImages "b" "a" [sampleImageA, sampleImageB] =
        pre ++ A :: B :: post :=
  reorder_places_dragged_before_target "b" "a" [sampleImageA, sampleImageB]
    1 0 (by rfl) (by rfl) (by decide)

end Maskify
